import Mathlib

/-!
Verification of the dependency-URL checker (contrib/check_dependency_urls.py).

Strings are modelled as lists of characters (`Str`); the script's parameter
named `variables` is a reserved word in Lean and appears below as `vars`.
Each regular expression
used by the script is embedded as a specialised matcher whose behaviour on the
pattern in question coincides with Python's leftmost / greedy backtracking
semantics.  Bounded `while` loops are embedded with explicit fuel equal to the
script's iteration bound.
-/

set_option maxRecDepth 10000

abbrev Str := List Char

def str (s : String) : Str := s.data

/-- Python whitespace set used by str.strip and the regex class \s (ASCII part). -/
def pyIsSpace (c : Char) : Bool :=
  c == ' ' || c == '\t' || c == '\n' || c == '\r' || c == '\x0b' || c == '\x0c'

/-- Python str.strip(): drop whitespace from both ends. -/
def pyStrip (s : Str) : Str :=
  ((s.dropWhile pyIsSpace).reverse.dropWhile pyIsSpace).reverse

/-- Python str.startswith: startsA pat s is true when pat occurs at the start of s. -/
def startsA : Str → Str → Bool
  | [], _ => true
  | _ :: _, [] => false
  | p :: ps, c :: cs => p == c && startsA ps cs

/-- Python substring test (the `in` operator on strings). -/
def containsSub (pat : Str) : Str → Bool
  | [] => startsA pat []
  | c :: rest => startsA pat (c :: rest) || containsSub pat rest

/-- Lookup in an association list; models Python dict membership/access
    (dict keys are unique, first match is the entry). -/
def lookupA {α : Type} : List (Str × α) → Str → Option α
  | [], _ => none
  | (k, v) :: rest, key => if k = key then some v else lookupA rest key

/-- Python dict assignment d[k] = v: replace the existing entry, else append. -/
def dictInsert : List (Str × Str) → Str → Str → List (Str × Str)
  | [], k, v => [(k, v)]
  | (k', v') :: rest, k, v =>
    if k' = k then (k, v) :: rest else (k', v') :: dictInsert rest k v

/-- Python ' '.join. -/
def joinSpace : List Str → Str
  | [] => []
  | [s] => s
  | s :: rest => s ++ ' ' :: joinSpace rest

/-- Python str.replace (all occurrences, left to right, non-overlapping),
    with fuel; the script only calls it with non-empty patterns. -/
def replaceAllF (old new : Str) : Nat → Str → Str
  | 0, s => s
  | _ + 1, [] => []
  | fuel + 1, c :: rest =>
    if old ≠ [] ∧ startsA old (c :: rest) = true then
      new ++ replaceAllF old new fuel ((c :: rest).drop old.length)
    else
      c :: replaceAllF old new fuel rest

def replaceAll (old new s : Str) : Str := replaceAllF old new s.length s

/-- The regex class \w (ASCII part, the script's inputs are ASCII). -/
def isWordChar (c : Char) : Bool := c.isAlpha || c.isDigit || c == '_'

/-- First character of the class [a-zA-Z_]. -/
def identStartChar (c : Char) : Bool := c.isAlpha || c == '_'

/-- Greedy split point for the nested pattern: the last index i of an
    underscore in run with 1 ≤ i and i + 2 ≤ run.length (group1 nonempty,
    group2 nonempty), matching the regex's greedy backtracking. -/
def lastSepIndex (run : Str) : Option Nat :=
  (List.range run.length).reverse.find?
    (fun i => decide (1 ≤ i ∧ i + 2 ≤ run.length) && (run.getD i ' ' == '_'))

/-- Attempted match of re pattern \$\(([a-zA-Z_][a-zA-Z0-9_]*)_(\w+)\) at the
    start of s; returns (whole match, group1, group2). -/
def searchNestedAt (s : Str) : Option (Str × Str × Str) :=
  if startsA (str "$(") s = true then
    let rest := s.drop 2
    let run := rest.takeWhile isWordChar
    if run ≠ [] ∧ identStartChar (run.headD ' ') = true ∧
        (rest.drop run.length).head? = some ')' then
      match lastSepIndex run with
      | some i => some ('$' :: '(' :: (run ++ [')']), run.take i, run.drop (i + 1))
      | none => none
    else none
  else none

/-- re.search of the nested pattern: leftmost position where it matches. -/
def searchNested : Str → Option (Str × Str × Str)
  | [] => none
  | c :: rest =>
    match searchNestedAt (c :: rest) with
    | some m => some m
    | none => searchNested rest

/-- Attempted match of re pattern \$\(([a-zA-Z_][a-zA-Z0-9_]*)\) at the start of s. -/
def searchVarAt (s : Str) : Option (Str × Str) :=
  if startsA (str "$(") s = true then
    let rest := s.drop 2
    let run := rest.takeWhile isWordChar
    if run ≠ [] ∧ identStartChar (run.headD ' ') = true ∧
        (rest.drop run.length).head? = some ')' then
      some ('$' :: '(' :: (run ++ [')']), run)
    else none
  else none

/-- re.search of the direct-placeholder pattern. -/
def searchVar : Str → Option (Str × Str)
  | [] => none
  | c :: rest =>
    match searchVarAt (c :: rest) with
    | some m => some m
    | none => searchVar rest

/-- Third block of the resolve_variables loop body: direct $(package_name_var)
    substitution.  c1 records whether the $(package) replacement changed anything. -/
def resolveStep3 (vars : List (Str × Str)) (package_name : Str)
    (r1 : Str) (c1 : Bool) : Str × Bool :=
  match searchVar r1 with
  | some (whole, key) =>
    if startsA (package_name ++ ['_']) key = true then
      match lookupA vars (key.drop (package_name.length + 1)) with
      | some v => (replaceAll whole v r1, true)
      | none => (r1, c1)
    else (r1, c1)
  | none => (r1, c1)

/-- One iteration of the while loop of resolve_variables; the Bool is the
    iteration's `changed` flag. -/
def resolveIter (vars : List (Str × Str)) (package_name : Str)
    (result : Str) : Str × Bool :=
  let r1 := replaceAll (str "$(package)") package_name result
  let c1 : Bool := decide (r1 ≠ result)
  match searchNested r1 with
  | some (whole, pre, vn) =>
    if pre = package_name then
      match lookupA vars vn with
      | some v => (replaceAll whole v r1, true)
      | none => resolveStep3 vars package_name r1 c1
    else resolveStep3 vars package_name r1 c1
  | none => resolveStep3 vars package_name r1 c1

/-- Bounded fixed-point loop shared by both resolvers: iterate f while it
    reports a change, at most fuel times (the script's max_iterations guard). -/
def loopFix (f : Str → Str × Bool) : Nat → Str → Str
  | 0, r => r
  | fuel + 1, r =>
    let p := f r
    if p.2 = true then loopFix f fuel p.1 else p.1

/-- Iterate the loop body n times unconditionally (used to state termination). -/
def applyN (f : Str → Str × Bool) : Nat → Str → Str
  | 0, r => r
  | n + 1, r => applyN f n (f r).1

/-- resolve_variables: same-package placeholder expansion, max 20 iterations. -/
def resolve_variables (value : Str) (vars : List (Str × Str))
    (package_name : Str) : Str :=
  loopFix (resolveIter vars package_name) 20 value

/-! ## Variable Extractor (parse_mk_file) -/

/-- The keyword test inside re.sub(r'\s+(if|else|endif|ifeq|ifneq).*$', '', s):
    `ifeq` and `ifneq` are subsumed by the `if` alternative. -/
def condKwAt (t : Str) : Bool :=
  startsA (str "if") t || startsA (str "else") t || startsA (str "endif") t

/-- re.sub(r'\s+(if|else|endif|ifeq|ifneq).*$', '', s) on a single line:
    truncate at the first whitespace run that is immediately followed by a
    conditional keyword (the match then extends to the end of the line). -/
def stripCond : Str → Str
  | [] => []
  | c :: rest =>
    if pyIsSpace c = true ∧ condKwAt (rest.dropWhile pyIsSpace) = true then []
    else c :: stripCond rest

/-- re.match(r'\$\(package\)_(\w+)\s*=\s*(.+)', s): returns (group1, group2). -/
def matchAssign (s : Str) : Option (Str × Str) :=
  if startsA (str "$(package)_") s = true then
    let rest := s.drop 11
    let name := rest.takeWhile isWordChar
    if name ≠ [] then
      match (rest.drop name.length).dropWhile pyIsSpace with
      | '=' :: rest3 =>
        let value := (rest3.dropWhile pyIsSpace).takeWhile (fun c => c != '\n')
        if value ≠ [] then some (name, value) else none
      | _ => none
    else none
  else none

/-- Line-scanner state of parse_mk_file's second loop. -/
structure PState where
  current_var : Option Str
  current_value : List Str
  in_conditional : Bool
  depth : Int
  vars : List (Str × Str)
deriving DecidableEq

/-- Flush the in-progress variable: variables[current_var] = ' '.join(current_value).strip(). -/
def flushVar (vs : List (Str × Str)) (cv : Option Str) (acc : List Str) :
    List (Str × Str) :=
  match cv with
  | some v => dictInsert vs v (pyStrip (joinSpace acc))
  | none => vs

/-- One line of parse_mk_file's variable-extraction loop. -/
def pstep (st : PState) (line : Str) : PState :=
  let s := pyStrip line
  if s = [] ∨ startsA (str "#") s = true then st
  else if startsA (str "if") s = true ∨ startsA (str "ifeq") s = true ∨
      startsA (str "ifneq") s = true then
    ⟨st.current_var, st.current_value, true, st.depth + 1, st.vars⟩
  else if startsA (str "else") s = true then st
  else if startsA (str "endif") s = true then
    ⟨st.current_var, st.current_value,
      (if st.depth - 1 = 0 then false else st.in_conditional), st.depth - 1, st.vars⟩
  else if startsA (str "define ") s = true ∨ startsA (str "endef") s = true then st
  else
    match matchAssign s with
    | some (name, value) =>
      ⟨some name, [stripCond (pyStrip value)], st.in_conditional, st.depth,
        flushVar st.vars st.current_var st.current_value⟩
    | none =>
      if st.current_var.isSome = true ∧ s ≠ [] ∧ st.in_conditional = false then
        (if stripCond s ≠ [] then
          ⟨st.current_var, st.current_value ++ [stripCond s], st.in_conditional,
            st.depth, st.vars⟩
        else st)
      else st

/-- The variable-extraction loop plus the final flush. -/
def parseVars (lines : List Str) : List (Str × Str) :=
  let st := lines.foldl pstep ⟨none, [], false, 0, []⟩
  flushVar st.vars st.current_var st.current_value

/-- First loop of parse_mk_file: the first stripped line starting with
    "package=" gives the package name (text after the first '=', stripped). -/
def extractPkgName : List Str → Option Str
  | [] => none
  | l :: ls =>
    if startsA (str "package=") (pyStrip l) = true then
      some (pyStrip ((pyStrip l).drop 8))
    else extractPkgName ls

/-- parse_mk_file on the file's lines: (package name, variable mapping);
    a missing or empty (falsy) package name yields (none, []). -/
def parse_mk_file (lines : List Str) : Option Str × List (Str × Str) :=
  match extractPkgName lines with
  | none => (none, [])
  | some name => if name = [] then (none, []) else (some name, parseVars lines)

/-! ## URL Builder -/

/-- Python s.rstrip('/'): remove every trailing '/'. -/
def rstripSlashes (s : Str) : Str := (s.reverse.dropWhile (fun c => c == '/')).reverse

/-- Python s.lstrip('/'): remove every leading '/'. -/
def lstripSlashes (s : Str) : Str := s.dropWhile (fun c => c == '/')

/-- build_url from the script. -/
def build_url (download_path file_name : Str) : Str :=
  let dp := rstripSlashes download_path
  let fn := lstripSlashes file_name
  if dp.getLast? = some '/' then dp ++ fn else dp ++ '/' :: fn

/-- Modelled from the spec's words for claim C4 only: strip ONE trailing slash
    from the base path, ONE leading slash from the file name, join with one '/'.
    (The source strips all of them; this definition is the claim's reading.) -/
def build_url_one_strip (download_path file_name : Str) : Str :=
  let dp := if download_path.getLast? = some '/' then download_path.dropLast
            else download_path
  let fn := if file_name.head? = some '/' then file_name.tail else file_name
  dp ++ '/' :: fn

/-! ## Availability Checker (check_url) -/

/-- Outcome of the HEAD probe issued by requests.head, as seen by check_url. -/
inductive ProbeOutcome
  | status (code : Nat)
  | timeout
  | connectionError
  | tooManyRedirects
  | requestException (msg : Str)

/-- Python str(n) for a natural number, as used by the f-string "HTTP {code}". -/
def natStr (n : Nat) : Str := (Nat.repr n).data

/-- check_url's classification of a probe outcome (success, status_code, message).
    package_name is optional because the script's parameter defaults to None. -/
def check_url (outcome : ProbeOutcome) (package_name : Option Str) :
    Bool × Nat × Str :=
  match outcome with
  | .status code =>
    if code = 200 then (true, code, str "Ok")
    else if code = 404 then (false, code, str "Not Found")
    else if code = 418 ∧ package_name = some (str "fontconfig") then
      (true, code, str "Ok (418 - special case)")
    else (false, code, str "HTTP " ++ natStr code)
  | .timeout => (false, 0, str "Timeout")
  | .connectionError => (false, 0, str "Connection Error")
  | .tooManyRedirects => (false, 0, str "Too Many Redirects")
  | .requestException msg => (false, 0, str "Error: " ++ msg)

/-! ## Cross-package resolver -/

/-- re.finditer(r'\$\(([^)]+)\)', s) with fuel: the non-overlapping matches,
    left to right, as (start, end, group1) with absolute positions. -/
def findAllPHF : Nat → Str → Nat → List (Nat × Nat × Str)
  | 0, _, _ => []
  | _ + 1, [], _ => []
  | fuel + 1, '$' :: '(' :: rest, p =>
    let content := rest.takeWhile (fun c => c != ')')
    if content.length < rest.length ∧ content ≠ [] then
      (p, p + content.length + 3, content) ::
        findAllPHF fuel (rest.drop (content.length + 1)) (p + content.length + 3)
    else findAllPHF fuel ('(' :: rest) (p + 1)
  | fuel + 1, _ :: rest, p => findAllPHF fuel rest (p + 1)

def findAllPH (s : Str) : List (Nat × Nat × Str) := findAllPHF s.length s 0

/-- Python full_var.rsplit('_', 1) when it yields two parts: split at the last
    underscore. -/
def rsplitLast (s : Str) : Option (Str × Str) :=
  let suffix := s.reverse.takeWhile (fun c => c != '_')
  if suffix.length = s.length then none
  else some (s.take (s.length - suffix.length - 1), suffix.reverse)

/-- Precedence tier 1 of resolve_cross_package_variables: scan the package
    index in order for the first other package whose name + '_' starts
    full_var and which owns the remainder variable; resolve that variable
    relative to its owner. -/
def tier1 (package_name full_var : Str) :
    List (Str × List (Str × Str)) → Option Str
  | [] => none
  | (other_package, vs) :: rest =>
    if other_package ≠ package_name ∧
        startsA (other_package ++ ['_']) full_var = true then
      match lookupA vs (full_var.drop (other_package.length + 1)) with
      | some v => some (resolve_variables v vs other_package)
      | none => tier1 package_name full_var rest
    else tier1 package_name full_var rest

/-- Handling of one placeholder match (processed right to left): tier 1, then
    the last-underscore fallback (tier 2); acc is (current string, changed). -/
def processMatch (package_name : Str) (all_packages : List (Str × List (Str × Str)))
    (acc : Str × Bool) (m : Nat × Nat × Str) : Str × Bool :=
  match tier1 package_name m.2.2 all_packages with
  | some v => (acc.1.take m.1 ++ v ++ acc.1.drop m.2.1, true)
  | none =>
    match rsplitLast m.2.2 with
    | some (potential_package, var_name) =>
      if potential_package ≠ package_name then
        match lookupA all_packages potential_package with
        | some pvars =>
          match lookupA pvars var_name with
          | some v0 =>
            (acc.1.take m.1 ++ resolve_variables v0 pvars potential_package ++
              acc.1.drop m.2.1, true)
          | none => acc
        | none => acc
      else acc
    | none => acc

/-- One iteration of resolve_cross_package_variables' while loop. -/
def crossIter (package_name : Str) (all_packages : List (Str × List (Str × Str)))
    (result : Str) : Str × Bool :=
  ((findAllPH result).reverse).foldl (processMatch package_name all_packages)
    (result, false)

/-- resolve_cross_package_variables, max 10 iterations. -/
def resolve_cross_package_variables (value : Str) (package_name : Str)
    (all_packages : List (Str × List (Str × Str))) : Str :=
  loopFix (crossIter package_name all_packages) 10 value

/-! ## Per-file orchestration (check_dependency_file) -/

inductive Status
  | ok
  | error
  | skip
deriving DecidableEq

structure CheckResult where
  package : Str
  url : Option Str
  status : Status
  status_code : Option Nat
  message : Str
deriving DecidableEq

/-- The filename-variable choice in check_dependency_file: file_name for the
    zeromq exception, else download_file, else file_name, else none. -/
def chooseFileVar (package_name : Str) (vs : List (Str × Str)) : Option Str :=
  if package_name = str "zeromq" ∧ (lookupA vs (str "file_name")).isSome = true then
    some (str "file_name")
  else if (lookupA vs (str "download_file")).isSome = true then
    some (str "download_file")
  else if (lookupA vs (str "file_name")).isSome = true then
    some (str "file_name")
  else none

/-- check_dependency_file; the file is given by its stem and its lines, and
    the network is abstracted as an oracle from URL to probe outcome. -/
def check_dependency_file (stem : Str) (lines : List Str)
    (all_packages : List (Str × List (Str × Str)))
    (probe : Str → ProbeOutcome) : CheckResult :=
  match parse_mk_file lines with
  | (none, _) => ⟨stem, none, .error, none, str "Failed to determine package name"⟩
  | (some package_name, vs) =>
    if package_name = [] then
      ⟨stem, none, .error, none, str "Failed to determine package name"⟩
    else if lookupA vs (str "download_path") = none then
      ⟨package_name, none, .skip, none, str "Missing required variable (download_path)"⟩
    else
      match chooseFileVar package_name vs with
      | none =>
        ⟨package_name, none, .skip, none,
          str "Missing required variable (download_file or file_name)"⟩
      | some file_var =>
        let dp0 := resolve_variables ((lookupA vs (str "download_path")).getD [])
          vs package_name
        let fn0 := resolve_variables ((lookupA vs file_var).getD []) vs package_name
        let dp := if all_packages ≠ [] then
            resolve_cross_package_variables dp0 package_name all_packages else dp0
        let fn := if all_packages ≠ [] then
            resolve_cross_package_variables fn0 package_name all_packages else fn0
        if containsSub (str "$(") dp = true ∨ containsSub (str "$(") fn = true then
          ⟨package_name, none, .skip, none,
            str "Failed to resolve all variables (possible cross-package references)"⟩
        else
          let url := build_url dp fn
          let r := check_url (probe url) (some package_name)
          ⟨package_name, some url, (if r.1 = true then .ok else .error), some r.2.1, r.2.2⟩

/-! ## Helper lemmas -/

theorem startsA_trans : ∀ p q t : Str, startsA p q = true → startsA q t = true →
    startsA p t = true := by
  intro p
  induction p with
  | nil => intro q t _ _; rfl
  | cons x xs ih =>
    intro q t hpq hqt
    cases q with
    | nil => simp [startsA] at hpq
    | cons y ys =>
      cases t with
      | nil => simp [startsA] at hqt
      | cons z zs =>
        simp [startsA] at hpq hqt ⊢
        exact ⟨hpq.1.trans hqt.1, ih ys zs hpq.2 hqt.2⟩

theorem startsA_decomp : ∀ p s : Str, startsA p s = true → ∃ t, s = p ++ t := by
  intro p
  induction p with
  | nil => intro s _; exact ⟨s, rfl⟩
  | cons x xs ih =>
    intro s h
    cases s with
    | nil => simp [startsA] at h
    | cons y ys =>
      simp [startsA] at h
      obtain ⟨t, ht⟩ := ih ys h.2
      exact ⟨t, by rw [h.1.symm, ht]; rfl⟩

theorem startsA_take : ∀ p s : Str, startsA p s = true → p = s.take p.length := by
  intro p
  induction p with
  | nil => intro s _; rfl
  | cons x xs ih =>
    intro s h
    cases s with
    | nil => simp [startsA] at h
    | cons y ys =>
      simp [startsA] at h
      rw [List.length_cons, List.take_succ_cons, h.1, ← ih ys h.2]

theorem startsA_length : ∀ p s : Str, startsA p s = true → p.length ≤ s.length := by
  intro p
  induction p with
  | nil => intro s _; simp
  | cons x xs ih =>
    intro s h
    cases s with
    | nil => simp [startsA] at h
    | cons y ys =>
      simp [startsA] at h
      have := ih ys h.2
      simp [List.length_cons]
      omega

theorem containsSub_of_starts (p q : Str) (hpq : startsA p q = true) :
    ∀ s : Str, containsSub q s = true → containsSub p s = true := by
  intro s
  induction s with
  | nil =>
    intro h
    simp only [containsSub] at h ⊢
    exact startsA_trans _ _ _ hpq h
  | cons c rest ih =>
    intro h
    simp only [containsSub, Bool.or_eq_true] at h ⊢
    rcases h with h | h
    · exact Or.inl (startsA_trans _ _ _ hpq h)
    · exact Or.inr (ih h)

theorem replaceAllF_id (old new : Str) :
    ∀ fuel s, containsSub old s = false → replaceAllF old new fuel s = s := by
  intro fuel
  induction fuel with
  | zero => intro s _; rfl
  | succ n ih =>
    intro s hs
    cases s with
    | nil => rfl
    | cons c rest =>
      simp only [containsSub, Bool.or_eq_false_iff] at hs
      simp only [replaceAllF]
      rw [if_neg, ih rest hs.2]
      intro hcontra
      rw [hs.1] at hcontra
      exact Bool.noConfusion hcontra.2

theorem replaceAll_id (old new s : Str) (h : containsSub old s = false) :
    replaceAll old new s = s := replaceAllF_id old new s.length s h

theorem searchNestedAt_none (s : Str) (h : startsA (str "$(") s = false) :
    searchNestedAt s = none := by
  unfold searchNestedAt
  rw [if_neg]
  rw [h]
  exact Bool.noConfusion

theorem searchNested_none : ∀ s : Str, containsSub (str "$(") s = false →
    searchNested s = none := by
  intro s
  induction s with
  | nil => intro _; rfl
  | cons c rest ih =>
    intro h
    simp only [containsSub, Bool.or_eq_false_iff] at h
    rw [searchNested, searchNestedAt_none _ h.1, ih h.2]

theorem searchVarAt_none (s : Str) (h : startsA (str "$(") s = false) :
    searchVarAt s = none := by
  unfold searchVarAt
  rw [if_neg]
  rw [h]
  exact Bool.noConfusion

theorem searchVar_none : ∀ s : Str, containsSub (str "$(") s = false →
    searchVar s = none := by
  intro s
  induction s with
  | nil => intro _; rfl
  | cons c rest ih =>
    intro h
    simp only [containsSub, Bool.or_eq_false_iff] at h
    rw [searchVar, searchVarAt_none _ h.1, ih h.2]

theorem containsSub_pkgtok_false (s : Str) (h : containsSub (str "$(") s = false) :
    containsSub (str "$(package)") s = false := by
  cases hcs : containsSub (str "$(package)") s with
  | false => rfl
  | true =>
    have h2 := containsSub_of_starts (str "$(") (str "$(package)") (by decide) s hcs
    rw [h] at h2
    exact Bool.noConfusion h2

theorem resolveIter_no_ph (vs : List (Str × Str)) (pkg s : Str)
    (h : containsSub (str "$(") s = false) : resolveIter vs pkg s = (s, false) := by
  have hrep : replaceAll (str "$(package)") pkg s = s :=
    replaceAll_id _ _ _ (containsSub_pkgtok_false s h)
  simp only [resolveIter, hrep, searchNested_none s h]
  simp only [resolveStep3, searchVar_none s h]
  simp

theorem resolve_variables_no_ph (s : Str) (vs : List (Str × Str)) (pkg : Str)
    (h : containsSub (str "$(") s = false) : resolve_variables s vs pkg = s := by
  show loopFix (resolveIter vs pkg) 20 s = s
  rw [show (20 : Nat) = 19 + 1 from rfl, loopFix]
  simp only [resolveIter_no_ph vs pkg s h]
  simp

theorem resolveStep3_cases (vs : List (Str × Str)) (pkg r1 : Str) (c1 : Bool) :
    resolveStep3 vs pkg r1 c1 = (r1, c1) ∨ (resolveStep3 vs pkg r1 c1).2 = true := by
  unfold resolveStep3
  split
  · split
    · split
      · exact Or.inr rfl
      · exact Or.inl rfl
    · exact Or.inl rfl
  · exact Or.inl rfl

theorem resolveIter_cases (vs : List (Str × Str)) (pkg r : Str) :
    resolveIter vs pkg r =
      (replaceAll (str "$(package)") pkg r,
        decide (replaceAll (str "$(package)") pkg r ≠ r)) ∨
      (resolveIter vs pkg r).2 = true := by
  simp only [resolveIter]
  split
  · split
    · split
      · exact Or.inr rfl
      · exact resolveStep3_cases vs pkg _ _
    · exact resolveStep3_cases vs pkg _ _
  · exact resolveStep3_cases vs pkg _ _

theorem resolveIter_snd_false (vs : List (Str × Str)) (pkg r : Str)
    (h : (resolveIter vs pkg r).2 = false) : (resolveIter vs pkg r).1 = r := by
  rcases resolveIter_cases vs pkg r with heq | htrue
  · rw [heq] at h ⊢
    simp at h
    simpa using h
  · rw [htrue] at h
    exact Bool.noConfusion h

theorem processMatch_cases (pkg : Str) (idx : List (Str × List (Str × Str)))
    (acc : Str × Bool) (m : Nat × Nat × Str) :
    processMatch pkg idx acc m = acc ∨ (processMatch pkg idx acc m).2 = true := by
  unfold processMatch
  split
  · exact Or.inr rfl
  · split
    · split
      · split
        · split
          · exact Or.inr rfl
          · exact Or.inl rfl
        · exact Or.inl rfl
      · exact Or.inl rfl
    · exact Or.inl rfl

theorem foldl_pm_true (pkg : Str) (idx : List (Str × List (Str × Str))) :
    ∀ (ms : List (Nat × Nat × Str)) (acc : Str × Bool), acc.2 = true →
      (ms.foldl (processMatch pkg idx) acc).2 = true := by
  intro ms
  induction ms with
  | nil => intro acc h; exact h
  | cons m ms ih =>
    intro acc h
    rw [List.foldl_cons]
    rcases processMatch_cases pkg idx acc m with heq | htrue
    · rw [heq]; exact ih acc h
    · exact ih _ htrue

theorem foldl_pm_id (pkg : Str) (idx : List (Str × List (Str × Str))) :
    ∀ (ms : List (Nat × Nat × Str)) (acc : Str × Bool),
      (ms.foldl (processMatch pkg idx) acc).2 = false →
      ms.foldl (processMatch pkg idx) acc = acc := by
  intro ms
  induction ms with
  | nil => intro acc _; rfl
  | cons m ms ih =>
    intro acc h
    rw [List.foldl_cons] at h ⊢
    rcases processMatch_cases pkg idx acc m with heq | htrue
    · rw [heq] at h ⊢; exact ih acc h
    · have := foldl_pm_true pkg idx ms (processMatch pkg idx acc m) htrue
      rw [this] at h
      exact Bool.noConfusion h

theorem crossIter_snd_false (pkg : Str) (idx : List (Str × List (Str × Str)))
    (r : Str) (h : (crossIter pkg idx r).2 = false) : (crossIter pkg idx r).1 = r := by
  unfold crossIter at h ⊢
  rw [foldl_pm_id pkg idx _ _ h]

theorem starts_foo_version (p : Str)
    (h : startsA (p ++ ['_']) (str "foo_version") = true) : p = str "foo" := by
  have htake := startsA_take _ _ h
  have hlen := startsA_length _ _ h
  rw [List.length_append] at htake hlen
  have hone : ([ '_'] : Str).length = 1 := rfl
  rw [hone] at htake hlen
  have h11 : (str "foo_version").length = 11 := rfl
  rw [h11] at hlen
  have key : ∀ n < 11,
      ((((str "foo_version").take (n + 1)).reverse).head? = some '_') → n = 3 := by
    decide
  have hrev : ('_' :: p.reverse) = ((str "foo_version").take (p.length + 1)).reverse := by
    have h2 := congrArg List.reverse htake
    simpa using h2
  have hhd : (((str "foo_version").take (p.length + 1)).reverse).head? = some '_' := by
    rw [← hrev]
    rfl
  have hn : p.length = 3 := key p.length (by omega) hhd
  rw [hn] at htake
  have h4 : p ++ ['_'] = str "foo_" := by
    rw [htake]
    rfl
  have hrev2 : '_' :: p.reverse = '_' :: ['o', 'o', 'f'] := by
    have h5 := congrArg List.reverse h4
    rw [show (str "foo_").reverse = '_' :: ['o', 'o', 'f'] from rfl] at h5
    simpa using h5
  have h6 : p.reverse = ['o', 'o', 'f'] := by
    injection hrev2
  have h7 := congrArg List.reverse h6
  rw [List.reverse_reverse] at h7
  rw [h7]
  rfl

theorem tier1_foo :
    ∀ (idx : List (Str × List (Str × Str))) (fooVars : List (Str × Str)),
      (idx.map Prod.fst).Nodup →
      (str "foo", fooVars) ∈ idx →
      lookupA fooVars (str "version") = some (str "1.2") →
      tier1 (str "bar") (str "foo_version") idx = some (str "1.2") := by
  intro idx
  induction idx with
  | nil => intro fooVars _ hmem _; simp at hmem
  | cons e rest ih =>
    intro fooVars hnd hmem hver
    obtain ⟨p, vs⟩ := e
    rw [List.map_cons] at hnd
    have hnd2 := List.nodup_cons.mp hnd
    by_cases hp : p = str "foo"
    · subst hp
      have hvs : vs = fooVars := by
        rcases List.mem_cons.mp hmem with heq | hmemr
        · injection heq with h1 h2
          exact h2.symm
        · exfalso
          exact hnd2.1 (List.mem_map.mpr ⟨(str "foo", fooVars), hmemr, rfl⟩)
      rw [tier1, if_pos (by decide)]
      have hdrop : (str "foo_version").drop ((str "foo").length + 1) = str "version" := rfl
      rw [hdrop, hvs, hver]
      show some (resolve_variables (str "1.2") fooVars (str "foo")) = some (str "1.2")
      rw [resolve_variables_no_ph (str "1.2") fooVars (str "foo") (by decide)]
    · rw [tier1, if_neg]
      · apply ih fooVars hnd2.2 ?_ hver
        rcases List.mem_cons.mp hmem with heq | hmemr
        · exfalso
          injection heq with h1 _
          exact hp h1.symm
        · exact hmemr
      · intro hcond
        exact hp (starts_foo_version p hcond.2)

theorem parse_some_ne_nil (lines : List Str) (pkg : Str) (vs : List (Str × Str))
    (h : parse_mk_file lines = (some pkg, vs)) : pkg ≠ [] := by
  unfold parse_mk_file at h
  cases hx : extractPkgName lines with
  | none =>
    simp only [hx] at h
    exact absurd h (by simp)
  | some name =>
    simp only [hx] at h
    by_cases hn : name = []
    · rw [if_pos hn] at h
      simp at h
    · rw [if_neg hn] at h
      have h1 : name = pkg := by
        have h2 := congrArg Prod.fst h
        simpa using h2
      rw [← h1]
      exact hn

theorem extractPkgName_none :
    ∀ lines : List Str,
      (∀ l ∈ lines, startsA (str "package=") (pyStrip l) = false) →
      extractPkgName lines = none := by
  intro lines
  induction lines with
  | nil => intro _; rfl
  | cons l ls ih =>
    intro h
    rw [extractPkgName, if_neg, ih]
    · intro l' hl'
      exact h l' (List.mem_cons_of_mem l hl')
    · rw [h l (List.mem_cons_self l ls)]
      exact Bool.noConfusion

theorem extractPkgName_first :
    ∀ (pre : List Str) (l : Str) (post : List Str),
      (∀ l' ∈ pre, startsA (str "package=") (pyStrip l') = false) →
      startsA (str "package=") (pyStrip l) = true →
      extractPkgName (pre ++ l :: post) = some (pyStrip ((pyStrip l).drop 8)) := by
  intro pre
  induction pre with
  | nil =>
    intro l post _ hl
    rw [List.nil_append, extractPkgName, if_pos hl]
  | cons q qs ih =>
    intro l post hpre hl
    rw [List.cons_append, extractPkgName, if_neg]
    · exact ih l post (fun l' hl' => hpre l' (List.mem_cons_of_mem q hl')) hl
    · rw [hpre q (List.mem_cons_self q qs)]
      exact Bool.noConfusion

theorem loopFix_spec (f : Str → Str × Bool) (hf : ∀ r, (f r).2 = false → (f r).1 = r) :
    ∀ fuel r, ∃ k, k ≤ fuel ∧ loopFix f fuel r = applyN f k r ∧
      (k < fuel → (f (applyN f k r)).2 = false) := by
  intro fuel
  induction fuel with
  | zero => intro r; exact ⟨0, Nat.le_refl 0, rfl, by omega⟩
  | succ n ih =>
    intro r
    cases hp : (f r).2 with
    | true =>
      obtain ⟨k, hk, heq, hfix⟩ := ih (f r).1
      refine ⟨k + 1, by omega, ?_, ?_⟩
      · rw [loopFix]
        simp only [hp, if_pos]
        rw [applyN]
        exact heq
      · intro hlt
        rw [applyN]
        exact hfix (by omega)
    | false =>
      refine ⟨0, by omega, ?_, fun _ => hp⟩
      rw [loopFix]
      simp only [hp]
      simp [hf r hp, applyN]

theorem head_dropWhile_not (p : Char → Bool) :
    ∀ (l : Str) (a : Char), (l.dropWhile p).head? = some a → p a = false := by
  intro l
  induction l with
  | nil => intro a h; exact absurd h (by simp)
  | cons c cs ih =>
    intro a h
    by_cases hc : p c = true
    · rw [List.dropWhile_cons, if_pos hc] at h
      exact ih a h
    · rw [List.dropWhile_cons, if_neg hc] at h
      have h2 := Option.some.inj h
      rw [← h2]
      simpa using hc

theorem rstrip_no_trailing (s : Str) : ¬ (rstripSlashes s).getLast? = some '/' := by
  unfold rstripSlashes
  intro h
  rw [List.getLast?_reverse] at h
  have h2 := head_dropWhile_not _ _ _ h
  simp at h2

/-! ## Claims -/

/-- C1: same-package resolution worked example: for package "foo" with
    variables version = "1.2" and file_name = "foo-$(foo_version).tar.gz",
    resolve_variables of "$(foo_file_name)" returns "foo-1.2.tar.gz". -/
theorem C1_resolve_example :
    resolve_variables (str "$(foo_file_name)")
      [(str "version", str "1.2"), (str "file_name", str "foo-$(foo_version).tar.gz")]
      (str "foo") = str "foo-1.2.tar.gz" := by decide

/-- C2: cross-package resolution worked example: in every package index whose
    names are unique (a Python dict) and in which package "foo" carries
    version = "1.2", resolving "lib-$(foo_version)" for package "bar" yields
    "lib-1.2" via precedence tier 1. -/
theorem C2_cross_package_example (idx : List (Str × List (Str × Str)))
    (fooVars : List (Str × Str))
    (hnd : (idx.map Prod.fst).Nodup)
    (hmem : (str "foo", fooVars) ∈ idx)
    (hver : lookupA fooVars (str "version") = some (str "1.2")) :
    resolve_cross_package_variables (str "lib-$(foo_version)") (str "bar") idx =
      str "lib-1.2" := by
  have ht1 := tier1_foo idx fooVars hnd hmem hver
  have hiter : crossIter (str "bar") idx (str "lib-$(foo_version)") =
      (str "lib-1.2", true) := by
    unfold crossIter
    rw [show findAllPH (str "lib-$(foo_version)") = [(4, 18, str "foo_version")]
      from rfl]
    rw [show ([(4, 18, str "foo_version")] : List (Nat × Nat × Str)).reverse =
      [(4, 18, str "foo_version")] from rfl]
    rw [List.foldl_cons, List.foldl_nil]
    simp only [processMatch, ht1]
    decide
  unfold resolve_cross_package_variables
  rw [show (10 : Nat) = 9 + 1 from rfl, loopFix]
  simp only [hiter]
  rw [show (9 : Nat) = 8 + 1 from rfl]
  simp only [loopFix]
  have h2 : crossIter (str "bar") idx (str "lib-1.2") = (str "lib-1.2", false) := rfl
  simp [h2]

theorem C2_witness :
    resolve_cross_package_variables (str "lib-$(foo_version)") (str "bar")
      [(str "foo", [(str "version", str "1.2")])] = str "lib-1.2" :=
  C2_cross_package_example [(str "foo", [(str "version", str "1.2")])]
    [(str "version", str "1.2")] (by decide) (by decide) (by decide)

/-- C3: the package name is taken from the first stripped line starting with
    the exact token "package=", and when no such line exists the extraction
    returns (none, empty mapping). -/
theorem C3_package_name_extraction :
    (∀ lines : List Str,
        (∀ l ∈ lines, startsA (str "package=") (pyStrip l) = false) →
        parse_mk_file lines = (none, []))
  ∧ (∀ (pre : List Str) (l : Str) (post : List Str),
        (∀ l' ∈ pre, startsA (str "package=") (pyStrip l') = false) →
        startsA (str "package=") (pyStrip l) = true →
        (parse_mk_file (pre ++ l :: post)).1 =
          (if pyStrip ((pyStrip l).drop 8) = [] then none
           else some (pyStrip ((pyStrip l).drop 8)))) := by
  constructor
  · intro lines h
    simp only [parse_mk_file, extractPkgName_none lines h]
  · intro pre l post hpre hl
    simp only [parse_mk_file, extractPkgName_first pre l post hpre hl]
    by_cases hn : pyStrip ((pyStrip l).drop 8) = []
    · simp [hn]
    · simp [hn]

theorem C3_witness :
    (parse_mk_file [str "# comment", str "package=foo"]).1 = some (str "foo") := by
  have h := C3_package_name_extraction.2 [str "# comment"] (str "package=foo") []
    (by decide) (by decide)
  exact h.trans (by decide)

/-- C4 counterexample: the source strips ALL trailing slashes from the base
    path (Python rstrip), not one; a base path ending in two slashes separates
    the source behaviour from the claim's one-slash-stripping reading. -/
theorem C4_counterexample :
    build_url (str "https://example.org/dl//") (str "archive-1.0.tar.gz") =
      str "https://example.org/dl/archive-1.0.tar.gz" ∧
    build_url_one_strip (str "https://example.org/dl//") (str "archive-1.0.tar.gz") =
      str "https://example.org/dl//archive-1.0.tar.gz" ∧
    build_url (str "https://example.org/dl//") (str "archive-1.0.tar.gz") ≠
      build_url_one_strip (str "https://example.org/dl//") (str "archive-1.0.tar.gz") :=
  ⟨by decide, by decide, by decide⟩

/-- C4 (amended): build_url strips ALL trailing slashes from the base path and
    ALL leading slashes from the file name, then joins with exactly one '/';
    both worked examples from the claim hold. -/
theorem C4_build_url_amended :
    (∀ dp fn : Str, build_url dp fn = rstripSlashes dp ++ '/' :: lstripSlashes fn)
  ∧ build_url (str "https://example.org/dl/") (str "/archive-1.0.tar.gz") =
      str "https://example.org/dl/archive-1.0.tar.gz"
  ∧ build_url (str "https://example.org/dl") (str "archive-1.0.tar.gz") =
      str "https://example.org/dl/archive-1.0.tar.gz" := by
  refine ⟨?_, by decide, by decide⟩
  intro dp fn
  simp only [build_url]
  rw [if_neg (rstrip_no_trailing dp)]

/-- C5: check_url's classification: 200 reachable "Ok"; 404 unreachable
    "Not Found"; 418 reachable only for package fontconfig; every other status
    s unreachable with message "HTTP s" (including 418 for other packages);
    timeout, connection failure and excessive redirects unreachable with code 0
    and their respective messages. -/
theorem C5_check_url_classification :
    (∀ pkg, check_url (ProbeOutcome.status 200) pkg = (true, 200, str "Ok"))
  ∧ (∀ pkg, check_url (ProbeOutcome.status 404) pkg = (false, 404, str "Not Found"))
  ∧ check_url (ProbeOutcome.status 418) (some (str "fontconfig")) =
      (true, 418, str "Ok (418 - special case)")
  ∧ (∀ (s : Nat) (pkg : Option Str), s ≠ 200 → s ≠ 404 →
      ¬(s = 418 ∧ pkg = some (str "fontconfig")) →
      check_url (ProbeOutcome.status s) pkg = (false, s, str "HTTP " ++ natStr s))
  ∧ (∀ pkg : Option Str, pkg ≠ some (str "fontconfig") →
      check_url (ProbeOutcome.status 418) pkg = (false, 418, str "HTTP 418"))
  ∧ (∀ pkg, check_url ProbeOutcome.timeout pkg = (false, 0, str "Timeout"))
  ∧ (∀ pkg, check_url ProbeOutcome.connectionError pkg =
      (false, 0, str "Connection Error"))
  ∧ (∀ pkg, check_url ProbeOutcome.tooManyRedirects pkg =
      (false, 0, str "Too Many Redirects")) := by
  refine ⟨fun pkg => rfl, fun pkg => rfl, rfl, ?_, ?_, fun pkg => rfl,
    fun pkg => rfl, fun pkg => rfl⟩
  · intro s pkg h200 h404 h418
    show (if s = 200 then ((true : Bool), s, str "Ok")
        else if s = 404 then (false, s, str "Not Found")
        else if s = 418 ∧ pkg = some (str "fontconfig") then
          (true, s, str "Ok (418 - special case)")
        else (false, s, str "HTTP " ++ natStr s)) =
      (false, s, str "HTTP " ++ natStr s)
    rw [if_neg h200, if_neg h404, if_neg h418]
  · intro pkg hpkg
    show (if (418 : Nat) = 200 then ((true : Bool), 418, str "Ok")
        else if (418 : Nat) = 404 then (false, 418, str "Not Found")
        else if (418 : Nat) = 418 ∧ pkg = some (str "fontconfig") then
          (true, 418, str "Ok (418 - special case)")
        else (false, 418, str "HTTP " ++ natStr 418)) =
      (false, 418, str "HTTP 418")
    rw [if_neg (by decide), if_neg (by decide), if_neg (fun h => hpkg h.2)]
    decide

theorem C5_witness :
    check_url (ProbeOutcome.status 418) (some (str "zlib")) =
      (false, 418, str "HTTP 418") :=
  C5_check_url_classification.2.2.2.2.1 (some (str "zlib")) (by decide)

/-- C6: a file whose extraction yields a package name but no download_path
    variable produces a skip result with the exact message
    "Missing required variable (download_path)", and never status error. -/
theorem C6_missing_download_path_skip (stem : Str) (lines : List Str) (pkg : Str)
    (vs : List (Str × Str)) (idx : List (Str × List (Str × Str)))
    (probe : Str → ProbeOutcome)
    (hparse : parse_mk_file lines = (some pkg, vs))
    (hdl : lookupA vs (str "download_path") = none) :
    check_dependency_file stem lines idx probe =
      ⟨pkg, none, Status.skip, none, str "Missing required variable (download_path)"⟩
    ∧ (check_dependency_file stem lines idx probe).status ≠ Status.error := by
  have hne := parse_some_ne_nil lines pkg vs hparse
  have hmain : check_dependency_file stem lines idx probe =
      ⟨pkg, none, Status.skip, none,
        str "Missing required variable (download_path)"⟩ := by
    simp only [check_dependency_file, hparse]
    rw [if_neg hne, if_pos hdl]
  refine ⟨hmain, ?_⟩
  rw [hmain]
  simp

theorem C6_witness :
    check_dependency_file (str "foo") [str "package=foo", str "$(package)_x=1"] []
      (fun _ => ProbeOutcome.timeout) =
      ⟨str "foo", none, Status.skip, none,
        str "Missing required variable (download_path)"⟩ :=
  (C6_missing_download_path_skip (str "foo")
    [str "package=foo", str "$(package)_x=1"] (str "foo") [(str "x", str "1")] []
    (fun _ => ProbeOutcome.timeout) (by decide) (by decide)).1

/-- C7: filename-variable choice: file_name is preferred for the zeromq
    exception when present; otherwise download_file when present; otherwise
    file_name when present; with neither, the per-file check returns a skip
    result with message "Missing required variable (download_file or file_name)". -/
theorem C7_file_var_selection :
    (∀ vs : List (Str × Str), (lookupA vs (str "file_name")).isSome = true →
        chooseFileVar (str "zeromq") vs = some (str "file_name"))
  ∧ (∀ (pkg : Str) (vs : List (Str × Str)),
        (pkg = str "zeromq" → lookupA vs (str "file_name") = none) →
        (lookupA vs (str "download_file")).isSome = true →
        chooseFileVar pkg vs = some (str "download_file"))
  ∧ (∀ (pkg : Str) (vs : List (Str × Str)),
        lookupA vs (str "download_file") = none →
        (lookupA vs (str "file_name")).isSome = true →
        chooseFileVar pkg vs = some (str "file_name"))
  ∧ (∀ (stem : Str) (lines : List Str) (pkg : Str) (vs : List (Str × Str))
        (idx : List (Str × List (Str × Str))) (probe : Str → ProbeOutcome),
        parse_mk_file lines = (some pkg, vs) →
        (lookupA vs (str "download_path")).isSome = true →
        lookupA vs (str "download_file") = none →
        lookupA vs (str "file_name") = none →
        check_dependency_file stem lines idx probe =
          ⟨pkg, none, Status.skip, none,
            str "Missing required variable (download_file or file_name)"⟩) := by
  refine ⟨?_, ?_, ?_, ?_⟩
  · intro vs h
    unfold chooseFileVar
    rw [if_pos ⟨rfl, h⟩]
  · intro pkg vs hz h
    unfold chooseFileVar
    rw [if_neg, if_pos h]
    intro hcond
    rw [hz hcond.1] at hcond
    exact Bool.noConfusion hcond.2
  · intro pkg vs hdf hfn
    unfold chooseFileVar
    by_cases hz : pkg = str "zeromq" ∧ (lookupA vs (str "file_name")).isSome = true
    · rw [if_pos hz]
    · rw [if_neg hz, if_neg, if_pos hfn]
      rw [hdf]
      exact Bool.noConfusion
  · intro stem lines pkg vs idx probe hparse hdp hdf hfn
    have hne := parse_some_ne_nil lines pkg vs hparse
    have hchoose : chooseFileVar pkg vs = none := by
      unfold chooseFileVar
      rw [if_neg, if_neg, if_neg]
      · rw [hfn]; exact Bool.noConfusion
      · rw [hdf]; exact Bool.noConfusion
      · intro hcond
        rw [hfn] at hcond
        exact Bool.noConfusion hcond.2
    simp only [check_dependency_file, hparse]
    rw [if_neg hne, if_neg, hchoose]
    intro hno
    rw [hno] at hdp
    exact Bool.noConfusion hdp

theorem C7_witness :
    check_dependency_file (str "foo")
      [str "package=foo", str "$(package)_download_path=http://x"] []
      (fun _ => ProbeOutcome.timeout) =
      ⟨str "foo", none, Status.skip, none,
        str "Missing required variable (download_file or file_name)"⟩ :=
  C7_file_var_selection.2.2.2 (str "foo")
    [str "package=foo", str "$(package)_download_path=http://x"] (str "foo")
    [(str "download_path", str "http://x")] [] (fun _ => ProbeOutcome.timeout)
    (by decide) (by decide) (by decide) (by decide)

/-- C8: a string containing no placeholder marker "$(" is returned unchanged
    by resolve_variables, for every variable mapping and package name. -/
theorem C8_resolve_idempotent (s : Str) (vs : List (Str × Str)) (pkg : Str)
    (h : containsSub (str "$(") s = false) : resolve_variables s vs pkg = s :=
  resolve_variables_no_ph s vs pkg h

theorem C8_witness :
    containsSub (str "$(") (str "foo-1.2.tar.gz") = false ∧
    resolve_variables (str "foo-1.2.tar.gz") [] (str "foo") = str "foo-1.2.tar.gz" :=
  ⟨by decide, C8_resolve_idempotent (str "foo-1.2.tar.gz") [] (str "foo") (by decide)⟩

/-- C9: bounded termination: resolve_variables runs at most 20 loop
    iterations and resolve_cross_package_variables at most 10; the returned
    string is the k-fold iterate for some k within the bound, and when the
    bound is not exhausted the loop stopped at an unchanged (fixed-point)
    iteration, so on exceeding the bound the best-effort string is returned. -/
theorem C9_bounded_termination :
    (∀ (value : Str) (vs : List (Str × Str)) (package_name : Str), ∃ k, k ≤ 20 ∧
        resolve_variables value vs package_name =
          applyN (resolveIter vs package_name) k value ∧
        (k < 20 → (resolveIter vs package_name
            (applyN (resolveIter vs package_name) k value)).2 = false))
  ∧ (∀ (value package_name : Str) (idx : List (Str × List (Str × Str))),
        ∃ k, k ≤ 10 ∧
        resolve_cross_package_variables value package_name idx =
          applyN (crossIter package_name idx) k value ∧
        (k < 10 → (crossIter package_name idx
            (applyN (crossIter package_name idx) k value)).2 = false)) := by
  constructor
  · intro value vs package_name
    exact loopFix_spec (resolveIter vs package_name)
      (fun r h => resolveIter_snd_false vs package_name r h) 20 value
  · intro value package_name idx
    exact loopFix_spec (crossIter package_name idx)
      (fun r h => crossIter_snd_false package_name idx r h) 10 value

theorem C9_witness :
    ∃ k, k ≤ 20 ∧ resolve_variables (str "abc") [] (str "p") =
      applyN (resolveIter [] (str "p")) k (str "abc") ∧
      (k < 20 → (resolveIter [] (str "p")
          (applyN (resolveIter [] (str "p")) k (str "abc"))).2 = false) :=
  C9_bounded_termination.1 (str "abc") [] (str "p")

/-- C10: a package-scoped assignment line is recognised and starts a new
    in-progress variable even while inside a conditional block
    (in_conditional remains true and only continuation merging is suppressed),
    and such variables appear in the extracted mapping. -/
theorem C10_assignment_in_conditional :
    (∀ (st : PState) (line name value : Str),
        st.in_conditional = true →
        matchAssign (pyStrip line) = some (name, value) →
        pstep st line =
          ⟨some name, [stripCond (pyStrip value)], true, st.depth,
            flushVar st.vars st.current_var st.current_value⟩)
  ∧ parse_mk_file [str "package=foo", str "ifeq ($(a),b)",
      str "$(package)_inside=xyz", str "endif"] =
      (some (str "foo"), [(str "inside", str "xyz")]) := by
  constructor
  · intro st line name value hcond hmatch
    have hstart : startsA (str "$(package)_") (pyStrip line) = true := by
      by_contra hns
      unfold matchAssign at hmatch
      rw [if_neg hns] at hmatch
      exact Option.noConfusion hmatch
    obtain ⟨t, ht⟩ := startsA_decomp _ _ hstart
    rw [ht] at hmatch
    have g0 : (str "$(package)_" ++ t = []) = False := eq_false (by
      rw [show str "$(package)_" ++ t = '$' :: (str "(package)_" ++ t) from rfl]
      simp)
    have g2 : startsA (str "#") (str "$(package)_" ++ t) = false := rfl
    have g3 : startsA (str "if") (str "$(package)_" ++ t) = false := rfl
    have g4 : startsA (str "ifeq") (str "$(package)_" ++ t) = false := rfl
    have g5 : startsA (str "ifneq") (str "$(package)_" ++ t) = false := rfl
    have g6 : startsA (str "else") (str "$(package)_" ++ t) = false := rfl
    have g7 : startsA (str "endif") (str "$(package)_" ++ t) = false := rfl
    have g8 : startsA (str "define ") (str "$(package)_" ++ t) = false := rfl
    have g9 : startsA (str "endef") (str "$(package)_" ++ t) = false := rfl
    simp only [pstep, ht, g0, g2, g3, g4, g5, g6, g7, g8, g9, hmatch, hcond]
    simp
  · decide

theorem C10_witness :
    pstep ⟨none, [], true, 1, []⟩ (str "$(package)_v=1") =
      ⟨some (str "v"), [str "1"], true, 1, []⟩ := by
  have h := C10_assignment_in_conditional.1 ⟨none, [], true, 1, []⟩
    (str "$(package)_v=1") (str "v") (str "1") rfl (by decide)
  rw [h]
  decide
